import Mathlib

/-!
# NAND flash driver (`nand.c`): shallow embedding and verification

The driver talks to the chip only through volatile memory-mapped accesses.
Every such access is a call into a `Device`; the driver functions are written
once, against an arbitrary device, and are then run

* on `busDevice`, a recording bus whose answers come from two scripts (the
  successive values of `EXT_BUS_CONTROL` and the successive data bytes), to
  reason about the exact sequence of bus accesses, and
* on `chipDevice`, a simulated flash chip, to reason about write/read
  round trips.

C `int` values are `Int`; `>>` on `int` is the arithmetic shift `>>>` (by a
`Nat` amount) and `&` is `Int.land`.  A value stored through `volatile unsigned char*` is reduced
modulo 256 (`u8`).  The busy-wait loop has no bound in the source, so it takes
a fuel argument and returns `none` when the fuel runs out.
-/

namespace Nand

/-! ## Data model -/

/-- The C operator `&` on `int` operands. -/
instance : AndOp Int := ⟨Int.land⟩

/-- Conversion of an `int` expression to `unsigned char`. -/
def u8 (x : Int) : Nat := (x % 256).toNat

/-- Modelled from the spec: the registers that `nand.c` names. Their
declarations are in `opora.h`, which is not among the sources; the spec lists
them as the clock-enable register (`RST_CLK->PER_CLOCK`), the pin registers of
the two ports (`PORTA`, `PORTC`) and the mode-select and timing registers of
the bus controller (`EXT_BUS`). -/
inductive Reg where
  | PER_CLOCK
  | PORTA_FUNC
  | PORTA_ANALOG
  | PORTA_PWR
  | PORTA_OE
  | PORTC_FUNC
  | PORTC_ANALOG
  | PORTC_PWR
  | EXT_BUS_CONTROL
  | NAND_CYCLES
  deriving DecidableEq, Repr

/-- One volatile access performed by the driver. -/
inductive Event where
  | regRead (r : Reg) (v : Nat)
  | regWrite (r : Reg) (v : Nat)
  | store8 (loc : Nat) (v : Nat)
  | load8 (loc : Nat) (v : Nat)
  deriving DecidableEq, Repr

/-- What the hardware does on each kind of volatile access. -/
structure Device (σ : Type) where
  readReg : Reg → σ → Nat × σ
  writeReg : Reg → Nat → σ → σ
  store8 : Nat → Nat → σ → σ
  load8 : Nat → σ → Nat × σ

/-! ## The driver -/

section Driver

variable {σ : Type}

/-- The statement `while ( (EXT_BUS->EXT_BUS_CONTROL & 0x80) == 0 );`. -/
def busy_wait (d : Device σ) : Nat → σ → Option σ
  | 0, _ => none
  | fuel + 1, s =>
    let r := d.readReg Reg.EXT_BUS_CONTROL s
    if r.1 &&& 0x80 = 0 then busy_wait d fuel r.2 else some r.2

/-- The statement `REG |= mask;`: one read of the register, one write. -/
def or_reg (d : Device σ) (r : Reg) (mask : Nat) (s : σ) : σ :=
  let x := d.readReg r s
  d.writeReg r (x.1 ||| mask) x.2

/-- Embedding of `nand_init` (nand.c, lines 13-38). -/
def nand_init (d : Device σ) (fuel : Nat) (s : σ) : Option σ :=
  let s := or_reg d Reg.PER_CLOCK 0x40A00000 s
  let s := or_reg d Reg.PORTA_FUNC 0x5555 s
  let s := or_reg d Reg.PORTA_ANALOG 0x80FF s
  let s := or_reg d Reg.PORTA_PWR 0xC000FFFF s
  let s := or_reg d Reg.PORTA_OE 0x8000 s
  let s := or_reg d Reg.PORTC_FUNC 0x0295 s
  let s := or_reg d Reg.PORTC_ANALOG 0x1F s
  let s := or_reg d Reg.PORTC_PWR 0x03FF s
  let s := d.writeReg Reg.EXT_BUS_CONTROL 0x04 s
  let s := d.writeReg Reg.NAND_CYCLES 0x03C83588 s
  let s := d.store8 0x770007F8 0 s
  busy_wait d fuel s

/-- The loop `for (...; i < len; i++) buf[ i ] = *(volatile unsigned char*)0x77280000;`
entered with the given value of `i`. -/
def read_loop (d : Device σ) (len : Int) (i : Int) (buf : Int → Nat) (s : σ) :
    (Int → Nat) × σ :=
  if h : i < len then
    let r := d.load8 0x77280000 s
    read_loop d len (i + 1) (Function.update buf i r.1) r.2
  else (buf, s)
termination_by (len - i).toNat
decreasing_by omega

/-- Embedding of `nand_get_param_page` (nand.c, lines 47-59). -/
def nand_get_param_page (d : Device σ) (fuel : Nat) (page : Int → Nat) (s : σ) :
    Option ((Int → Nat) × σ) :=
  let s := d.store8 0x77200760 0 s
  match busy_wait d fuel s with
  | none => none
  | some s => some (read_loop d 768 0 page s)

/-- Embedding of `nand_get_status` (nand.c, lines 66-72); the returned `int`
is the byte that was read. -/
def nand_get_status (d : Device σ) (s : σ) : Nat × σ :=
  let s := d.store8 0x77000380 0 s
  d.load8 0x77280000 s

/-- Embedding of `nand_erase` (nand.c, lines 81-92). -/
def nand_erase (d : Device σ) (fuel : Nat) (addr : Int) (s : σ) : Option (Nat × σ) :=
  let s := d.store8 0x77768300 (u8 ((addr >>> (13 : Nat)) &&& 0xFF)) s
  let s := d.store8 0x77768300 (u8 ((addr >>> (21 : Nat)) &&& 0xFF)) s
  let s := d.store8 0x77768300 (u8 ((addr >>> (29 : Nat)) &&& 0x07)) s
  match busy_wait d fuel s with
  | none => none
  | some s => some (nand_get_status d s)

/-- Embedding of `nand_read` (nand.c, lines 103-120). -/
def nand_read (d : Device σ) (fuel : Nat) (addr len : Int) (buf : Int → Nat) (s : σ) :
    Option ((Int → Nat) × σ) :=
  let s := d.store8 0x77B18000 (u8 (addr &&& 0xFF)) s
  let s := d.store8 0x77B18000 (u8 ((addr >>> (8 : Nat)) &&& 0x1F)) s
  let s := d.store8 0x77B18000 (u8 ((addr >>> (13 : Nat)) &&& 0xFF)) s
  let s := d.store8 0x77B18000 (u8 ((addr >>> (21 : Nat)) &&& 0xFF)) s
  let s := d.store8 0x77B18000 (u8 ((addr >>> (29 : Nat)) &&& 0x07)) s
  match busy_wait d fuel s with
  | none => none
  | some s => some (read_loop d len 0 buf s)

/-- The loop `for (...; i < len; i++) *(volatile unsigned char*)0x77288000 = buf[ i ];`
entered with the given value of `i`; returns the value of `i` on exit. -/
def write_loop (d : Device σ) (len : Int) (i : Int) (buf : Int → Nat) (s : σ) : Int × σ :=
  if h : i < len then
    write_loop d len (i + 1) buf (d.store8 0x77288000 (buf i) s)
  else (i, s)
termination_by (len - i).toNat
decreasing_by omega

/-- Embedding of `nand_write` (nand.c, lines 131-151). -/
def nand_write (d : Device σ) (fuel : Nat) (addr len : Int) (buf : Int → Nat) (s : σ) :
    Option σ :=
  let s := d.store8 0x77A00400 (u8 (addr &&& 0xFF)) s
  let s := d.store8 0x77A00400 (u8 ((addr >>> (8 : Nat)) &&& 0x1F)) s
  let s := d.store8 0x77A00400 (u8 ((addr >>> (13 : Nat)) &&& 0xFF)) s
  let s := d.store8 0x77A00400 (u8 ((addr >>> (21 : Nat)) &&& 0xFF)) s
  let s := d.store8 0x77A00400 (u8 ((addr >>> (29 : Nat)) &&& 0x07)) s
  let len := len - 1
  let r := write_loop d len 0 buf s
  let s := d.store8 0x77388000 (buf r.1) r.2
  busy_wait d fuel s

end Driver

/-! ## The recording bus -/

/-- State of the recording bus. `status n` is the value returned by the `n`-th
read of `EXT_BUS_CONTROL`, `data n` the byte returned by the `n`-th byte load;
`regs` holds the value last written to each register (the configuration
registers read back what was written); `trace` is chronological. -/
structure Bus where
  regs : Reg → Nat
  status : Nat → Nat
  polls : Nat
  data : Nat → Nat
  loads : Nat
  trace : List Event

/-- The recording bus as a device. -/
def busDevice : Device Bus where
  readReg := fun r s =>
    if r = Reg.EXT_BUS_CONTROL then
      (s.status s.polls,
        { s with polls := s.polls + 1,
                 trace := s.trace ++ [Event.regRead r (s.status s.polls)] })
    else (s.regs r, { s with trace := s.trace ++ [Event.regRead r (s.regs r)] })
  writeReg := fun r v s =>
    { s with regs := Function.update s.regs r v, trace := s.trace ++ [Event.regWrite r v] }
  store8 := fun loc v s => { s with trace := s.trace ++ [Event.store8 loc v] }
  load8 := fun loc s =>
    (s.data s.loads,
      { s with loads := s.loads + 1, trace := s.trace ++ [Event.load8 loc (s.data s.loads)] })

/-- A bus with zeroed registers, an empty trace and the given scripts. -/
def Bus.init (status data : Nat → Nat) : Bus :=
  { regs := fun _ => 0, status := status, polls := 0, data := data, loads := 0, trace := [] }

/-- A concrete bus: busy for two polls, ready from the third on. -/
def demoBus : Bus :=
  Bus.init (fun n => if n < 2 then 0x04 else 0x84) (fun n => (7 * n + 3) % 256)

/-- The accesses performed between bus state `s` and the later state `s1`. -/
def newEvents (s s1 : Bus) : List Event := s1.trace.drop s.trace.length

/-- The values stored to location `loc`, in order. -/
def storesTo (loc : Nat) : List Event → List Nat
  | [] => []
  | Event.store8 l v :: tr => if l = loc then v :: storesTo loc tr else storesTo loc tr
  | Event.regRead _ _ :: tr => storesTo loc tr
  | Event.regWrite _ _ :: tr => storesTo loc tr
  | Event.load8 _ _ :: tr => storesTo loc tr

/-- The `k + 1` polls that a busy-wait performs from bus state `s`. -/
def pollEvents (s : Bus) (k : Nat) : List Event :=
  (List.range (k + 1)).map fun j => Event.regRead Reg.EXT_BUS_CONTROL (s.status (s.polls + j))

/-- The ready bit (0x80) first shows at the `k`-th poll counted from bus state
`s`; no other bit of the status values is constrained. -/
def ReadyAt (s : Bus) (k : Nat) : Prop :=
  (∀ j, j < k → s.status (s.polls + j) &&& 0x80 = 0) ∧ s.status (s.polls + k) &&& 0x80 ≠ 0

/-- The `n` loads of the data location performed from bus state `s`. -/
def loadEvents (s : Bus) (n : Nat) : List Event :=
  (List.range n).map fun t => Event.load8 0x77280000 (s.data (s.loads + t))

/-- The stores of `buf[i], ..., buf[i + n - 1]` to the plain data-write location. -/
def dataStores (buf : Int → Nat) (i : Int) (n : Nat) : List Event :=
  (List.range n).map fun (t : Nat) => Event.store8 0x77288000 (buf (i + (t : Int)))

/-! ## The address layout of the specification -/

/-- The 32-bit pattern of an `int`. -/
def pattern (addr : Int) : Nat := (addr % 2 ^ 32).toNat

/-- The field of `w` bits of `A` that starts at bit `lo`. -/
def bits (A lo w : Nat) : Nat := (A / 2 ^ lo) % 2 ^ w

/-- Specification side (data model, NAND Address): the 5-byte cycle sequence,
`byte0 = bits[7:0]`, `byte1 = bits[12:8]`, `byte2 = bits[20:13]`,
`byte3 = bits[28:21]`, `byte4 = bits[31:29]`. -/
def cycleBytes (A : Nat) : List Nat :=
  [bits A 0 8, bits A 8 5, bits A 13 8, bits A 21 8, bits A 29 3]

/-- Specification side: decoding of five cycle bytes back to an address,
`b0 + b1*2^8 + b2*2^13 + b3*2^21 + b4*2^29`. -/
def decodeCycles : List Nat → Nat
  | [b0, b1, b2, b3, b4] => b0 + b1 * 2 ^ 8 + b2 * 2 ^ 13 + b3 * 2 ^ 21 + b4 * 2 ^ 29
  | _ => 0

/-- The five cycle bytes of `A` stored, in order, to one location. -/
def addressPhase (loc : Nat) (A : Nat) : List Event :=
  (cycleBytes A).map (Event.store8 loc)

/-- The three cycle bytes `bits[20:13]`, `bits[28:21]`, `bits[31:29]` of `A`
stored to the erase location. -/
def erasePhase (A : Nat) : List Event :=
  [Event.store8 0x77768300 (bits A 13 8), Event.store8 0x77768300 (bits A 21 8),
   Event.store8 0x77768300 (bits A 29 3)]

/-- Register contents after the configuration statements of `nand_init`. -/
def initRegs (regs : Reg → Nat) : Reg → Nat
  | Reg.PER_CLOCK => regs Reg.PER_CLOCK ||| 0x40A00000
  | Reg.PORTA_FUNC => regs Reg.PORTA_FUNC ||| 0x5555
  | Reg.PORTA_ANALOG => regs Reg.PORTA_ANALOG ||| 0x80FF
  | Reg.PORTA_PWR => regs Reg.PORTA_PWR ||| 0xC000FFFF
  | Reg.PORTA_OE => regs Reg.PORTA_OE ||| 0x8000
  | Reg.PORTC_FUNC => regs Reg.PORTC_FUNC ||| 0x0295
  | Reg.PORTC_ANALOG => regs Reg.PORTC_ANALOG ||| 0x1F
  | Reg.PORTC_PWR => regs Reg.PORTC_PWR ||| 0x03FF
  | Reg.EXT_BUS_CONTROL => 0x04
  | Reg.NAND_CYCLES => 0x03C83588

/-- The read and the write of one `|=` statement. -/
def orEvents (regs : Reg → Nat) (r : Reg) (mask : Nat) : List Event :=
  [Event.regRead r (regs r), Event.regWrite r (regs r ||| mask)]

/-- The register accesses of `nand_init` that come before the reset command. -/
def configEvents (regs : Reg → Nat) : List Event :=
  orEvents regs Reg.PER_CLOCK 0x40A00000 ++ orEvents regs Reg.PORTA_FUNC 0x5555
    ++ orEvents regs Reg.PORTA_ANALOG 0x80FF ++ orEvents regs Reg.PORTA_PWR 0xC000FFFF
    ++ orEvents regs Reg.PORTA_OE 0x8000 ++ orEvents regs Reg.PORTC_FUNC 0x0295
    ++ orEvents regs Reg.PORTC_ANALOG 0x1F ++ orEvents regs Reg.PORTC_PWR 0x03FF
    ++ [Event.regWrite Reg.EXT_BUS_CONTROL 0x04, Event.regWrite Reg.NAND_CYCLES 0x03C83588]

/-! ## Protocol phases -/

/-- The protocol phase an access belongs to. -/
inductive Phase where
  | config
  | command
  | address
  | data
  | poll
  deriving DecidableEq, Repr

/-- Specification side: the phase of each access of the driver. Reads of
`EXT_BUS_CONTROL` are polls of the ready flag, other register accesses are
configuration; the stores that the source comments name as commands (reset
0x770007F8, parameter page 0x77200760, status 0x77000380) are command issue,
the three locations that receive address cycles are the address phase, and
every other byte access (data 0x77280000, data write 0x77288000, confirm
0x77388000) is a data transfer. -/
def phaseOf : Event → Phase
  | Event.regRead r _ => if r = Reg.EXT_BUS_CONTROL then Phase.poll else Phase.config
  | Event.regWrite _ _ => Phase.config
  | Event.store8 loc _ =>
    if loc = 0x770007F8 ∨ loc = 0x77200760 ∨ loc = 0x77000380 then Phase.command
    else if loc = 0x77768300 ∨ loc = 0x77B18000 ∨ loc = 0x77A00400 then Phase.address
    else Phase.data
  | Event.load8 _ _ => Phase.data

/-- Position of a phase in the order configuration, command issue, address
cycles, data transfers, busy-wait polling. -/
def Phase.rank : Phase → Nat
  | Phase.config => 0
  | Phase.command => 1
  | Phase.address => 2
  | Phase.data => 3
  | Phase.poll => 4

/-- The phases of the accesses performed between `s` and `s1`. -/
def phasesOf (s s1 : Bus) : List Phase := (newEvents s s1).map phaseOf

/-- Every access belongs to a phase that is not earlier than the phase of any
access before it; in particular nothing follows the polling. -/
def PhasesInOrder (ps : List Phase) : Prop :=
  List.Pairwise (fun p q => p.rank ≤ q.rank) ps

/-! ## The simulated chip -/

/-- Protocol state of the simulated chip: idle, collecting the address cycles
of a program or of a page read, or transferring data at a memory pointer. -/
inductive ChipMode where
  | idle
  | progAddr (cyc : List Nat)
  | prog (ptr : Nat)
  | readAddr (cyc : List Nat)
  | read (ptr : Nat)
  deriving DecidableEq, Repr

/-- State of the simulated chip: the stored bytes, the protocol state, the
number of polls an internal operation keeps the chip busy, and the number of
polls the chip stays busy from now. -/
structure Chip where
  mem : Nat → Nat
  mode : ChipMode
  latency : Nat
  busy : Nat

/-- Modelled from the spec: the simulated chip of the test harness that the
testable properties refer to (the sources contain no harness). The fifth address cycle to the program location
0x77A00400 or to the read location 0x77B18000 fixes the memory pointer at the
decoded address; bytes stored to the data-write location 0x77288000 and to
the confirm location 0x77388000 are stored at consecutive memory cells, the
confirm byte ending the program; loads of the data location 0x77280000 after
a read address phase return consecutive memory cells, but only once the chip
is ready. After a read address phase and after a confirm the chip reports
busy (bit 0x80 clear) for `latency` polls. -/
def chipDevice : Device Chip where
  readReg := fun r c =>
    if r = Reg.EXT_BUS_CONTROL then
      if c.busy = 0 then (0x84, c) else (0x04, { c with busy := c.busy - 1 })
    else (0, c)
  writeReg := fun _ _ c => c
  store8 := fun loc v c =>
    if loc = 0x77A00400 then
      let cyc := (match c.mode with
        | ChipMode.progAddr cyc => cyc
        | _ => []) ++ [v]
      if cyc.length = 5 then { c with mode := ChipMode.prog (decodeCycles cyc) }
      else { c with mode := ChipMode.progAddr cyc }
    else if loc = 0x77B18000 then
      let cyc := (match c.mode with
        | ChipMode.readAddr cyc => cyc
        | _ => []) ++ [v]
      if cyc.length = 5 then
        { c with mode := ChipMode.read (decodeCycles cyc), busy := c.latency }
      else { c with mode := ChipMode.readAddr cyc }
    else if loc = 0x77288000 then
      match c.mode with
      | ChipMode.prog p =>
        { c with mem := Function.update c.mem p v, mode := ChipMode.prog (p + 1) }
      | _ => c
    else if loc = 0x77388000 then
      match c.mode with
      | ChipMode.prog p =>
        { c with mem := Function.update c.mem p v, mode := ChipMode.idle, busy := c.latency }
      | _ => c
    else c
  load8 := fun loc c =>
    if loc = 0x77280000 then
      match c.mode with
      | ChipMode.read p =>
        if c.busy = 0 then (c.mem p, { c with mode := ChipMode.read (p + 1) }) else (0xFF, c)
      | _ => (0xFF, c)
    else (0xFF, c)

/-- A concrete idle chip with erased memory that stays busy for three polls. -/
def demoChip : Chip :=
  { mem := fun _ => 0xFF, mode := ChipMode.idle, latency := 3, busy := 0 }

/-! ## Auxiliary lemmas -/

theorem ldiff_mask (w x : Nat) : Nat.ldiff (2 ^ w - 1) x = 2 ^ w - 1 - x % 2 ^ w := by
  have hx : x % 2 ^ w < 2 ^ w := Nat.mod_lt _ (by positivity)
  have e : 2 ^ w - 1 - x % 2 ^ w = 2 ^ w - (x % 2 ^ w + 1) := by omega
  rw [e]
  apply Nat.eq_of_testBit_eq
  intro i
  rw [Nat.testBit_ldiff, Nat.testBit_two_pow_sub_succ hx, Nat.testBit_two_pow_sub_one,
    Nat.testBit_mod_two_pow]
  cases decide (i < w) <;> simp

theorem land_mask (a : Int) (w : Nat) :
    ((a &&& ((2 ^ w - 1 : Nat) : Int)) : Int) = a % 2 ^ w := by
  cases a with
  | ofNat m =>
    show ((Nat.land m (2 ^ w - 1) : Nat) : Int) = _
    have : Nat.land m (2 ^ w - 1) = m % 2 ^ w := Nat.and_pow_two_sub_one_eq_mod m w
    rw [this]; simp
  | negSucc m =>
    show ((Nat.ldiff (2 ^ w - 1) m : Nat) : Int) = _
    rw [ldiff_mask]
    have hx : m % 2 ^ w < 2 ^ w := Nat.mod_lt _ (by positivity)
    have hd := Nat.div_add_mod m (2 ^ w)
    have e : Int.negSucc m = ((2 ^ w - 1 - m % 2 ^ w : Nat) : Int) + (-((m / 2 ^ w : Nat) : Int) - 1) * 2 ^ w := by
      rw [Int.negSucc_eq]
      have h1 : ((2 ^ w - 1 - m % 2 ^ w : Nat) : Int) = (2 : Int) ^ w - 1 - ((m % 2 ^ w : Nat) : Int) := by
        rw [Nat.sub_sub, Nat.cast_sub (by omega)]; push_cast; ring
      rw [h1]
      have h2 : (m : Int) = (2 : Int) ^ w * ((m / 2 ^ w : Nat) : Int) + ((m % 2 ^ w : Nat) : Int) := by
        exact_mod_cast hd.symm
      conv_lhs => rw [h2]
      ring
    rw [e, Int.add_mul_emod_self]
    symm
    apply Int.emod_eq_of_lt
    · positivity
    · have : 2 ^ w - 1 - m % 2 ^ w < 2 ^ w := by omega
      exact_mod_cast this

theorem land_ff (a : Int) : a &&& 0xFF = a % 256 := land_mask a 8
theorem land_1f (a : Int) : a &&& 0x1F = a % 32 := land_mask a 5
theorem land_07 (a : Int) : a &&& 0x07 = a % 8 := land_mask a 3

theorem cycle0 (a : Int) : u8 (a &&& 0xFF) = bits (pattern a) 0 8 := by
  rw [land_ff]; unfold u8 bits pattern; omega
theorem cycle1 (a : Int) : u8 ((a >>> (8 : Nat)) &&& 0x1F) = bits (pattern a) 8 5 := by
  rw [land_1f, Int.shiftRight_eq_div_pow]; unfold u8 bits pattern; simp; omega
theorem cycle2 (a : Int) : u8 ((a >>> (13 : Nat)) &&& 0xFF) = bits (pattern a) 13 8 := by
  rw [land_ff, Int.shiftRight_eq_div_pow]; unfold u8 bits pattern; simp; omega
theorem cycle3 (a : Int) : u8 ((a >>> (21 : Nat)) &&& 0xFF) = bits (pattern a) 21 8 := by
  rw [land_ff, Int.shiftRight_eq_div_pow]; unfold u8 bits pattern; simp; omega
theorem cycle4 (a : Int) : u8 ((a >>> (29 : Nat)) &&& 0x07) = bits (pattern a) 29 3 := by
  rw [land_07, Int.shiftRight_eq_div_pow]; unfold u8 bits pattern; simp; omega

theorem busy_wait_run (k : Nat) : ∀ (s : Bus) (fuel : Nat), ReadyAt s k → k < fuel →
    busy_wait busDevice fuel s =
      some { s with polls := s.polls + (k + 1), trace := s.trace ++ pollEvents s k } := by
  induction k with
  | zero =>
    intro s fuel h hf
    obtain ⟨f, rfl⟩ : ∃ f, fuel = f + 1 := ⟨fuel - 1, by omega⟩
    have h0 : s.status s.polls &&& 0x80 ≠ 0 := by simpa using h.2
    simp [busy_wait, busDevice, h0, pollEvents]
    rfl
  | succ k ih =>
    intro s fuel h hf
    obtain ⟨f, rfl⟩ : ∃ f, fuel = f + 1 := ⟨fuel - 1, by omega⟩
    have h0 : s.status s.polls &&& 0x80 = 0 := by simpa using h.1 0 (by omega)
    have hr : ReadyAt (busDevice.readReg Reg.EXT_BUS_CONTROL s).2 k := by
      constructor
      · intro j hj
        have := h.1 (j + 1) (by omega)
        simpa [busDevice, Nat.add_assoc, Nat.add_comm 1 j] using this
      · have := h.2
        simpa [busDevice, Nat.add_assoc, Nat.add_comm 1 k] using this
    rw [busy_wait]
    simp only [show (busDevice.readReg Reg.EXT_BUS_CONTROL s).1 = s.status s.polls from rfl, h0,
      if_true]
    rw [ih _ f hr (by omega)]
    simp [busDevice, pollEvents, List.range_succ_eq_map, Nat.add_assoc, Nat.add_comm 1]

theorem busy_wait_short (k : Nat) : ∀ (s : Bus) (fuel : Nat), ReadyAt s k → fuel ≤ k →
    busy_wait busDevice fuel s = none := by
  induction k with
  | zero =>
    intro s fuel h hf
    obtain rfl : fuel = 0 := by omega
    rfl
  | succ k ih =>
    intro s fuel h hf
    cases fuel with
    | zero => rfl
    | succ f =>
      have h0 : s.status s.polls &&& 0x80 = 0 := by simpa using h.1 0 (by omega)
      have hr : ReadyAt (busDevice.readReg Reg.EXT_BUS_CONTROL s).2 k := by
        constructor
        · intro j hj
          have := h.1 (j + 1) (by omega)
          simpa [busDevice, Nat.add_assoc, Nat.add_comm 1 j] using this
        · have := h.2
          simpa [busDevice, Nat.add_assoc, Nat.add_comm 1 k] using this
      rw [busy_wait]
      simp only [show (busDevice.readReg Reg.EXT_BUS_CONTROL s).1 = s.status s.polls from rfl, h0,
        if_true]
      exact ih _ f hr (by omega)

theorem read_loop_run (n : Nat) : ∀ (len i : Int) (buf : Int → Nat) (s : Bus),
    (len - i).toNat = n →
    read_loop busDevice len i buf s =
      (fun j => if i ≤ j ∧ j < len then s.data (s.loads + (j - i).toNat) else buf j,
        { s with loads := s.loads + n, trace := s.trace ++ loadEvents s n }) := by
  induction n with
  | zero =>
    intro len i buf s h
    have hle : ¬ i < len := by omega
    rw [read_loop]
    simp only [hle, dif_neg, not_false_eq_true]
    have : (fun j => if i ≤ j ∧ j < len then s.data (s.loads + (j - i).toNat) else buf j) = buf := by
      funext j
      have : ¬ (i ≤ j ∧ j < len) := by omega
      simp [this]
    simp [this, loadEvents]
  | succ n ih =>
    intro len i buf s h
    have hlt : i < len := by omega
    rw [read_loop]
    simp only [hlt, dif_pos]
    rw [ih len (i + 1) _ _ (by omega)]
    congr 1
    · funext j
      by_cases h1 : i + 1 ≤ j ∧ j < len
      · have h2 : i ≤ j ∧ j < len := by omega
        have h3 : (j - i).toNat = (j - (i + 1)).toNat + 1 := by omega
        simp [h1, h2, h3, busDevice, Nat.add_assoc, Nat.add_comm 1]
      · by_cases h4 : j = i
        · subst h4
          simp [hlt, busDevice]
        · have h2 : ¬ (i ≤ j ∧ j < len) := by omega
          simp [h1, h2, Function.update_noteq h4]
    · simp [busDevice, loadEvents, List.range_succ_eq_map, Nat.add_assoc, Nat.add_comm 1]

theorem write_loop_run (n : Nat) : ∀ (len i : Int) (buf : Int → Nat) (s : Bus),
    (len - i).toNat = n →
    write_loop busDevice len i buf s =
      (max i len, { s with trace := s.trace ++ dataStores buf i n }) := by
  induction n with
  | zero =>
    intro len i buf s h
    have hle : ¬ i < len := by omega
    rw [write_loop]
    simp only [hle, dif_neg, not_false_eq_true]
    have : max i len = i := by omega
    simp [this, dataStores]
  | succ n ih =>
    intro len i buf s h
    have hlt : i < len := by omega
    rw [write_loop]
    simp only [hlt, dif_pos]
    rw [ih len (i + 1) _ _ (by omega)]
    have : max (i + 1) len = max i len := by omega
    simp [this, busDevice, dataStores, List.range_succ_eq_map, Int.add_assoc, Int.add_comm 1]

theorem nand_read_run (s : Bus) (k fuel : Nat) (addr len : Int) (buf : Int → Nat)
    (h : ReadyAt s k) (hf : k < fuel) :
    nand_read busDevice fuel addr len buf s =
      some (fun j => if 0 ≤ j ∧ j < len then s.data (s.loads + j.toNat) else buf j,
        { s with polls := s.polls + (k + 1), loads := s.loads + len.toNat,
                 trace := s.trace ++ addressPhase 0x77B18000 (pattern addr) ++ pollEvents s k
                   ++ loadEvents s len.toNat }) := by
  unfold nand_read
  rw [cycle1, cycle2, cycle3, cycle4, cycle0]
  simp only []
  have hw := busy_wait_run k
    { s with trace := s.trace ++ addressPhase 0x77B18000 (pattern addr) } fuel h hf
  have e : busDevice.store8 0x77B18000 (bits (pattern addr) 29 3)
      (busDevice.store8 0x77B18000 (bits (pattern addr) 21 8)
        (busDevice.store8 0x77B18000 (bits (pattern addr) 13 8)
          (busDevice.store8 0x77B18000 (bits (pattern addr) 8 5)
            (busDevice.store8 0x77B18000 (bits (pattern addr) 0 8) s))))
      = { s with trace := s.trace ++ addressPhase 0x77B18000 (pattern addr) } := by
    simp [busDevice, addressPhase, cycleBytes]
  rw [e, hw]
  simp only []
  rw [read_loop_run len.toNat len 0 buf _ (by omega)]
  simp [pollEvents, loadEvents]

theorem nand_write_run (s : Bus) (k fuel : Nat) (addr len : Int) (buf : Int → Nat)
    (h : ReadyAt s k) (hf : k < fuel) :
    nand_write busDevice fuel addr len buf s =
      some { s with polls := s.polls + (k + 1),
                    trace := s.trace ++ addressPhase 0x77A00400 (pattern addr)
                      ++ dataStores buf 0 (len - 1).toNat
                      ++ [Event.store8 0x77388000 (buf (max 0 (len - 1)))]
                      ++ pollEvents s k } := by
  unfold nand_write
  rw [cycle1, cycle2, cycle3, cycle4, cycle0]
  simp only []
  rw [write_loop_run (len - 1).toNat (len - 1) 0 buf _ (by omega)]
  have hw := busy_wait_run k
    { s with trace := s.trace ++ addressPhase 0x77A00400 (pattern addr)
                      ++ dataStores buf 0 (len - 1).toNat
                      ++ [Event.store8 0x77388000 (buf (max 0 (len - 1)))] } fuel h hf
  simp only [busDevice, addressPhase, cycleBytes, List.map, List.append_assoc,
    List.singleton_append, List.cons_append, List.nil_append] at hw ⊢
  rw [hw]
  simp [pollEvents]

theorem nand_get_status_run (s : Bus) :
    nand_get_status busDevice s =
      (s.data s.loads,
        { s with loads := s.loads + 1,
                 trace := s.trace ++ [Event.store8 0x77000380 0,
                   Event.load8 0x77280000 (s.data s.loads)] }) := by
  simp [nand_get_status, busDevice]

theorem nand_erase_run (s : Bus) (k fuel : Nat) (addr : Int)
    (h : ReadyAt s k) (hf : k < fuel) :
    nand_erase busDevice fuel addr s =
      some (s.data s.loads,
        { s with polls := s.polls + (k + 1), loads := s.loads + 1,
                 trace := s.trace ++ erasePhase (pattern addr) ++ pollEvents s k
                   ++ [Event.store8 0x77000380 0, Event.load8 0x77280000 (s.data s.loads)] }) := by
  unfold nand_erase
  rw [cycle2, cycle3, cycle4]
  simp only []
  have hw := busy_wait_run k { s with trace := s.trace ++ erasePhase (pattern addr) } fuel h hf
  simp only [busDevice, erasePhase, List.append_assoc,
    List.singleton_append, List.cons_append, List.nil_append] at hw ⊢
  rw [hw]
  simp [nand_get_status, pollEvents]

theorem nand_get_param_page_run (s : Bus) (k fuel : Nat) (page : Int → Nat)
    (h : ReadyAt s k) (hf : k < fuel) :
    nand_get_param_page busDevice fuel page s =
      some (fun j => if 0 ≤ j ∧ j < 768 then s.data (s.loads + j.toNat) else page j,
        { s with polls := s.polls + (k + 1), loads := s.loads + 768,
                 trace := s.trace ++ [Event.store8 0x77200760 0] ++ pollEvents s k
                   ++ loadEvents s 768 }) := by
  unfold nand_get_param_page
  simp only []
  have hw := busy_wait_run k { s with trace := s.trace ++ [Event.store8 0x77200760 0] } fuel h hf
  simp only [busDevice] at hw ⊢
  rw [hw]
  simp only []
  have hr := read_loop_run 768 768 0 page
    { s with polls := s.polls + (k + 1),
             trace := s.trace ++ [Event.store8 0x77200760 0] ++ pollEvents s k } (by decide)
  simp only [busDevice, pollEvents, loadEvents] at hr ⊢
  rw [hr]
  simp

theorem nand_init_run (s : Bus) (k fuel : Nat) (h : ReadyAt s k) (hf : k < fuel) :
    nand_init busDevice fuel s =
      some { s with regs := initRegs s.regs, polls := s.polls + (k + 1),
                    trace := s.trace ++ configEvents s.regs ++ [Event.store8 0x770007F8 0]
                      ++ pollEvents s k } := by
  unfold nand_init
  simp only []
  have hw := busy_wait_run k
    { s with regs := initRegs s.regs,
             trace := s.trace ++ configEvents s.regs ++ [Event.store8 0x770007F8 0] } fuel h hf
  have e : busDevice.store8 0x770007F8 0
      (busDevice.writeReg Reg.NAND_CYCLES 0x03C83588
        (busDevice.writeReg Reg.EXT_BUS_CONTROL 0x04
          (or_reg busDevice Reg.PORTC_PWR 0x03FF
            (or_reg busDevice Reg.PORTC_ANALOG 0x1F
              (or_reg busDevice Reg.PORTC_FUNC 0x0295
                (or_reg busDevice Reg.PORTA_OE 0x8000
                  (or_reg busDevice Reg.PORTA_PWR 0xC000FFFF
                    (or_reg busDevice Reg.PORTA_ANALOG 0x80FF
                      (or_reg busDevice Reg.PORTA_FUNC 0x5555
                        (or_reg busDevice Reg.PER_CLOCK 0x40A00000 s))))))))))
      = { s with regs := initRegs s.regs,
                 trace := s.trace ++ configEvents s.regs ++ [Event.store8 0x770007F8 0] } := by
    simp only [or_reg, busDevice, configEvents, orEvents]
    simp
    funext r
    cases r <;> simp [initRegs, Function.update]
  rw [e, hw]
  simp [pollEvents]

theorem chip_busy_wait (b : Nat) : ∀ (c : Chip) (fuel : Nat), c.busy = b → b < fuel →
    busy_wait chipDevice fuel c = some { c with busy := 0 } := by
  induction b with
  | zero =>
    intro c fuel hb hf
    obtain ⟨f, rfl⟩ : ∃ f, fuel = f + 1 := ⟨fuel - 1, by omega⟩
    simp [busy_wait, chipDevice, hb]
    cases c; simp_all
  | succ b ih =>
    intro c fuel hb hf
    obtain ⟨f, rfl⟩ : ∃ f, fuel = f + 1 := ⟨fuel - 1, by omega⟩
    rw [busy_wait]
    have e : chipDevice.readReg Reg.EXT_BUS_CONTROL c = (0x04, { c with busy := b }) := by
      simp [chipDevice, hb]
    rw [e]
    simp only []
    rw [if_pos (by decide)]
    rw [ih _ f rfl (by omega)]

theorem chip_write_loop (n : Nat) : ∀ (len i : Int) (buf : Int → Nat) (c : Chip) (p : Nat),
    (len - i).toNat = n → c.mode = ChipMode.prog p →
    write_loop chipDevice len i buf c =
      (max i len,
        { c with mem := fun a => if p ≤ a ∧ a < p + n then buf (i + ((a - p : Nat) : Int)) else c.mem a,
                 mode := ChipMode.prog (p + n) }) := by
  induction n with
  | zero =>
    intro len i buf c p h hm
    have hle : ¬ i < len := by omega
    rw [write_loop]
    simp only [hle, dif_neg, not_false_eq_true]
    have : max i len = i := by omega
    cases c
    simp_all
    funext a
    have : ¬ (p ≤ a ∧ a < p) := by omega
    simp [this]
  | succ n ih =>
    intro len i buf c p h hm
    have hlt : i < len := by omega
    rw [write_loop]
    simp only [hlt, dif_pos]
    have e : chipDevice.store8 0x77288000 (buf i) c =
        { c with mem := Function.update c.mem p (buf i), mode := ChipMode.prog (p + 1) } := by
      simp [chipDevice, hm]
    rw [e, ih len (i + 1) buf _ (p + 1) (by omega) rfl]
    have : max (i + 1) len = max i len := by omega
    simp only [this, Prod.mk.injEq, true_and, Chip.mk.injEq, and_true]
    refine ⟨?_, by rw [Nat.add_assoc, Nat.add_comm 1 n]⟩
    funext a
    by_cases h1 : p + 1 ≤ a ∧ a < p + 1 + n
    · have h2 : p ≤ a ∧ a < p + (n + 1) := by omega
      have h3 : ((a - p : Nat) : Int) = ((a - (p + 1) : Nat) : Int) + 1 := by omega
      simp only [h1, h2, and_self, if_true, h3]
      congr 1
      omega
    · by_cases h4 : a = p
      · subst h4
        simp
      · have h2 : ¬ (p ≤ a ∧ a < p + (n + 1)) := by omega
        simp [h1, h2, Function.update_noteq h4]

theorem chip_read_loop (n : Nat) : ∀ (len i : Int) (out : Int → Nat) (c : Chip) (p : Nat),
    (len - i).toNat = n → c.mode = ChipMode.read p → c.busy = 0 →
    read_loop chipDevice len i out c =
      (fun j => if i ≤ j ∧ j < len then c.mem (p + (j - i).toNat) else out j,
        { c with mode := ChipMode.read (p + n) }) := by
  induction n with
  | zero =>
    intro len i out c p h hm hb
    have hle : ¬ i < len := by omega
    rw [read_loop]
    simp only [hle, dif_neg, not_false_eq_true]
    have : (fun j => if i ≤ j ∧ j < len then c.mem (p + (j - i).toNat) else out j) = out := by
      funext j
      have : ¬ (i ≤ j ∧ j < len) := by omega
      simp [this]
    rw [this]
    cases c
    simp_all
  | succ n ih =>
    intro len i out c p h hm hb
    have hlt : i < len := by omega
    rw [read_loop]
    simp only [hlt, dif_pos]
    have e : chipDevice.load8 0x77280000 c = (c.mem p, { c with mode := ChipMode.read (p + 1) }) := by
      simp [chipDevice, hm, hb]
    rw [e]
    simp only []
    rw [ih len (i + 1) _ { c with mode := ChipMode.read (p + 1) } (p + 1) (by omega) rfl hb]
    simp only [Prod.mk.injEq, Chip.mk.injEq, and_true, true_and]
    refine ⟨?_, by rw [Nat.add_assoc, Nat.add_comm 1 n]⟩
    funext j
    by_cases h1 : i + 1 ≤ j ∧ j < len
    · have h2 : i ≤ j ∧ j < len := by omega
      have h3 : (j - i).toNat = (j - (i + 1)).toNat + 1 := by omega
      simp [h1, h2, h3, Nat.add_assoc, Nat.add_comm 1]
    · by_cases h4 : j = i
      · subst h4
        simp [hlt]
      · have h2 : ¬ (i ≤ j ∧ j < len) := by omega
        simp [h1, h2, Function.update_noteq h4]

theorem chip_nand_write_run (c : Chip) (fuel : Nat) (addr len : Int) (buf : Int → Nat)
    (hm : c.mode = ChipMode.idle) (hl : 1 ≤ len) (hf : c.latency < fuel) :
    nand_write chipDevice fuel addr len buf c =
      some { c with
        mem := fun a =>
          if decodeCycles (cycleBytes (pattern addr)) ≤ a ∧
              a < decodeCycles (cycleBytes (pattern addr)) + len.toNat
          then buf ((a - decodeCycles (cycleBytes (pattern addr)) : Nat) : Int) else c.mem a,
        mode := ChipMode.idle, busy := 0 } := by
  unfold nand_write
  rw [cycle1, cycle2, cycle3, cycle4, cycle0]
  simp only []
  have e : chipDevice.store8 0x77A00400 (bits (pattern addr) 29 3)
      (chipDevice.store8 0x77A00400 (bits (pattern addr) 21 8)
        (chipDevice.store8 0x77A00400 (bits (pattern addr) 13 8)
          (chipDevice.store8 0x77A00400 (bits (pattern addr) 8 5)
            (chipDevice.store8 0x77A00400 (bits (pattern addr) 0 8) c))))
      = { c with mode := ChipMode.prog (decodeCycles (cycleBytes (pattern addr))) } := by
    simp [chipDevice, hm, cycleBytes]
  rw [e, chip_write_loop (len - 1).toNat (len - 1) 0 buf _ _ (by omega) rfl]
  simp only []
  have hmax : max 0 (len - 1) = len - 1 := by omega
  have e2 : ∀ (m : Nat → Nat) (v : Nat),
      chipDevice.store8 0x77388000 v
        { c with mem := m,
                 mode := ChipMode.prog (decodeCycles (cycleBytes (pattern addr)) + (len - 1).toNat) }
      = { c with mem := Function.update m
                   (decodeCycles (cycleBytes (pattern addr)) + (len - 1).toNat) v,
                 mode := ChipMode.idle, busy := c.latency } := by
    intro m v
    simp [chipDevice]
  rw [e2, chip_busy_wait c.latency _ fuel rfl hf, hmax]
  simp only [Option.some.injEq, Chip.mk.injEq, and_true, true_and]
  funext a
  generalize decodeCycles (cycleBytes (pattern addr)) = P
  by_cases h4 : a = P + (len - 1).toNat
  · subst h4
    have h1 : P ≤ P + (len - 1).toNat ∧ P + (len - 1).toNat < P + len.toNat := by omega
    have h5 : ((P + (len - 1).toNat - P : Nat) : Int) = len - 1 := by omega
    rw [Function.update_same, if_pos h1, h5]
  · rw [Function.update_noteq h4]
    by_cases h1 : P ≤ a ∧ a < P + (len - 1).toNat
    · have h2 : P ≤ a ∧ a < P + len.toNat := by omega
      rw [if_pos h1, if_pos h2, Int.zero_add]
    · have h2 : ¬ (P ≤ a ∧ a < P + len.toNat) := by omega
      rw [if_neg h1, if_neg h2]

theorem chip_nand_read_run (c : Chip) (fuel : Nat) (addr len : Int) (out : Int → Nat)
    (hm : c.mode = ChipMode.idle) (hf : c.latency < fuel) :
    nand_read chipDevice fuel addr len out c =
      some (fun j => if 0 ≤ j ∧ j < len
              then c.mem (decodeCycles (cycleBytes (pattern addr)) + j.toNat) else out j,
        { c with mode := ChipMode.read (decodeCycles (cycleBytes (pattern addr)) + len.toNat),
                 busy := 0 }) := by
  unfold nand_read
  rw [cycle1, cycle2, cycle3, cycle4, cycle0]
  simp only []
  have e : chipDevice.store8 0x77B18000 (bits (pattern addr) 29 3)
      (chipDevice.store8 0x77B18000 (bits (pattern addr) 21 8)
        (chipDevice.store8 0x77B18000 (bits (pattern addr) 13 8)
          (chipDevice.store8 0x77B18000 (bits (pattern addr) 8 5)
            (chipDevice.store8 0x77B18000 (bits (pattern addr) 0 8) c))))
      = { c with mode := ChipMode.read (decodeCycles (cycleBytes (pattern addr))),
                 busy := c.latency } := by
    simp [chipDevice, hm, cycleBytes]
  rw [e, chip_busy_wait c.latency _ fuel rfl hf]
  simp only []
  rw [chip_read_loop len.toNat len 0 out _ _ (by omega) rfl rfl]
  simp

theorem newEvents_of_trace (s s1 : Bus) (X : List Event) (h : s1.trace = s.trace ++ X) :
    newEvents s s1 = X := by
  unfold newEvents
  rw [h, List.drop_left]

theorem storesTo_append (loc : Nat) (xs ys : List Event) :
    storesTo loc (xs ++ ys) = storesTo loc xs ++ storesTo loc ys := by
  induction xs with
  | nil => rfl
  | cons e xs ih =>
    cases e with
    | store8 l v =>
      by_cases hl : l = loc
      · simp [storesTo, hl, ih]
      · simp [storesTo, hl, ih]
    | regRead r v => simpa [storesTo] using ih
    | regWrite r v => simpa [storesTo] using ih
    | load8 l v => simpa [storesTo] using ih

theorem storesTo_poll (loc : Nat) (s : Bus) (k : Nat) : storesTo loc (pollEvents s k) = [] := by
  unfold pollEvents
  induction List.range (k + 1) with
  | nil => rfl
  | cons j js ih => simpa [storesTo] using ih

theorem storesTo_load (loc : Nat) (s : Bus) (n : Nat) : storesTo loc (loadEvents s n) = [] := by
  unfold loadEvents
  induction List.range n with
  | nil => rfl
  | cons j js ih => simpa [storesTo] using ih

theorem storesTo_dataStores (loc : Nat) (buf : Int → Nat) (i : Int) (n : Nat)
    (hl : loc ≠ 0x77288000) : storesTo loc (dataStores buf i n) = [] := by
  unfold dataStores
  induction List.range n with
  | nil => rfl
  | cons j js ih =>
    have : ¬ (0x77288000 = loc) := fun h => hl h.symm
    simpa [storesTo, this] using ih

theorem storesTo_addressPhase (loc A : Nat) : storesTo loc (addressPhase loc A) = cycleBytes A := by
  simp [addressPhase, cycleBytes, storesTo]

theorem phase_poll (s : Bus) (k : Nat) :
    (pollEvents s k).map phaseOf = List.replicate (k + 1) Phase.poll := by
  unfold pollEvents
  rw [List.map_map]
  have : (phaseOf ∘ fun j => Event.regRead Reg.EXT_BUS_CONTROL (s.status (s.polls + j)))
      = fun _ => Phase.poll := by
    funext j; simp [phaseOf]
  rw [this]
  simp

theorem phase_load (s : Bus) (n : Nat) :
    (loadEvents s n).map phaseOf = List.replicate n Phase.data := by
  unfold loadEvents
  rw [List.map_map]
  have : (phaseOf ∘ fun t => Event.load8 0x77280000 (s.data (s.loads + t)))
      = fun _ => Phase.data := by
    funext j; simp [phaseOf]
  rw [this]
  simp

theorem phase_dataStores (buf : Int → Nat) (i : Int) (n : Nat) :
    (dataStores buf i n).map phaseOf = List.replicate n Phase.data := by
  unfold dataStores
  rw [List.map_map]
  have : (phaseOf ∘ fun (t : Nat) => Event.store8 0x77288000 (buf (i + (t : Int))))
      = fun _ => Phase.data := by
    funext j; simp [phaseOf]
  rw [this]
  simp

theorem phase_config (regs : Reg → Nat) :
    (configEvents regs).map phaseOf = List.replicate 18 Phase.config := by
  simp [configEvents, orEvents, phaseOf, List.replicate]

theorem decode_cycleBytes (A : Nat) (hA : A < 2 ^ 32) : decodeCycles (cycleBytes A) = A := by
  simp only [cycleBytes, decodeCycles, bits]
  norm_num at hA ⊢
  omega

theorem pattern_natCast (A : Nat) (hA : A < 2 ^ 32) : pattern (A : Int) = A := by
  unfold pattern
  norm_num at hA ⊢
  omega

theorem initRegs_idem (regs : Reg → Nat) : initRegs (initRegs regs) = initRegs regs := by
  funext r
  cases r <;> simp [initRegs, Nat.lor_assoc]

theorem phasesOf_of_trace (s s1 : Bus) (X : List Event) (h : s1.trace = s.trace ++ X) :
    phasesOf s s1 = X.map phaseOf := by
  unfold phasesOf
  rw [newEvents_of_trace s s1 X h]

theorem busy_wait_not_some (s s0 s1 : Bus) (k fuel : Nat)
    (hx : busy_wait busDevice fuel s0 = some s1)
    (hs : s0.status = s.status) (hp : s0.polls = s.polls)
    (h : ReadyAt s k) (hf : fuel ≤ k) : False := by
  have h0 : ReadyAt s0 k := by
    unfold ReadyAt at h ⊢
    rw [hs, hp]
    exact h
  rw [busy_wait_short k s0 fuel h0 hf] at hx
  cases hx

theorem nand_init_short (s : Bus) (k fuel : Nat) (h : ReadyAt s k) (hf : fuel ≤ k) :
    nand_init busDevice fuel s = none := by
  unfold nand_init
  simp only []
  generalize hx : busy_wait busDevice fuel _ = r
  cases r with
  | none => rfl
  | some s1 => exact (busy_wait_not_some s _ s1 k fuel hx rfl rfl h hf).elim

theorem nand_write_short (s : Bus) (k fuel : Nat) (addr len : Int) (buf : Int → Nat)
    (h : ReadyAt s k) (hf : fuel ≤ k) :
    nand_write busDevice fuel addr len buf s = none := by
  unfold nand_write
  simp only []
  rw [write_loop_run (len - 1).toNat (len - 1) 0 buf _ (by omega)]
  generalize hx : busy_wait busDevice fuel _ = r
  cases r with
  | none => rfl
  | some s1 => exact (busy_wait_not_some s _ s1 k fuel hx rfl rfl h hf).elim

theorem nand_read_short (s : Bus) (k fuel : Nat) (addr len : Int) (buf : Int → Nat)
    (h : ReadyAt s k) (hf : fuel ≤ k) :
    nand_read busDevice fuel addr len buf s = none := by
  unfold nand_read
  simp only []
  generalize hx : busy_wait busDevice fuel _ = r
  cases r with
  | none => rfl
  | some s1 => exact (busy_wait_not_some s _ s1 k fuel hx rfl rfl h hf).elim

theorem nand_erase_short (s : Bus) (k fuel : Nat) (addr : Int)
    (h : ReadyAt s k) (hf : fuel ≤ k) :
    nand_erase busDevice fuel addr s = none := by
  unfold nand_erase
  simp only []
  generalize hx : busy_wait busDevice fuel _ = r
  cases r with
  | none => rfl
  | some s1 => exact (busy_wait_not_some s _ s1 k fuel hx rfl rfl h hf).elim

theorem nand_get_param_page_short (s : Bus) (k fuel : Nat) (page : Int → Nat)
    (h : ReadyAt s k) (hf : fuel ≤ k) :
    nand_get_param_page busDevice fuel page s = none := by
  unfold nand_get_param_page
  simp only []
  generalize hx : busy_wait busDevice fuel _ = r
  cases r with
  | none => rfl
  | some s1 => exact (busy_wait_not_some s _ s1 k fuel hx rfl rfl h hf).elim

/-! ## The claims -/

/-- C1: for every `int` address, with `A` its 32-bit pattern, a run of
`nand_read` and a run of `nand_write` on the recording bus begin with the five
stores of `A bits[7:0]`, `bits[12:8]`, `bits[20:13]`, `bits[28:21]`,
`bits[31:29]` (in this order) to 0x77B18000, respectively 0x77A00400; the
rest of the run stores nothing more to that location, and the second and the
fifth byte are below 32 and below 8. -/
theorem address_phase_five_cycles (s : Bus) (k fuel : Nat) (addr len : Int)
    (buf out : Int → Nat) (h : ReadyAt s k) (hf : k < fuel) :
    (∃ out1 s1 rest, nand_read busDevice fuel addr len out s = some (out1, s1) ∧
      newEvents s s1 =
        [Event.store8 0x77B18000 (bits (pattern addr) 0 8),
         Event.store8 0x77B18000 (bits (pattern addr) 8 5),
         Event.store8 0x77B18000 (bits (pattern addr) 13 8),
         Event.store8 0x77B18000 (bits (pattern addr) 21 8),
         Event.store8 0x77B18000 (bits (pattern addr) 29 3)] ++ rest ∧
      storesTo 0x77B18000 rest = []) ∧
    (∃ s2 rest, nand_write busDevice fuel addr len buf s = some s2 ∧
      newEvents s s2 =
        [Event.store8 0x77A00400 (bits (pattern addr) 0 8),
         Event.store8 0x77A00400 (bits (pattern addr) 8 5),
         Event.store8 0x77A00400 (bits (pattern addr) 13 8),
         Event.store8 0x77A00400 (bits (pattern addr) 21 8),
         Event.store8 0x77A00400 (bits (pattern addr) 29 3)] ++ rest ∧
      storesTo 0x77A00400 rest = []) ∧
    bits (pattern addr) 8 5 < 32 ∧ bits (pattern addr) 29 3 < 8 := by
  refine ⟨⟨_, _, pollEvents s k ++ loadEvents s len.toNat,
      nand_read_run s k fuel addr len out h hf, ?_, ?_⟩,
    ⟨_, dataStores buf 0 (len - 1).toNat ++ [Event.store8 0x77388000 (buf (max 0 (len - 1)))]
        ++ pollEvents s k,
      nand_write_run s k fuel addr len buf h hf, ?_, ?_⟩, ?_, ?_⟩
  · apply newEvents_of_trace
    simp [addressPhase, cycleBytes]
  · rw [storesTo_append, storesTo_poll, storesTo_load]; rfl
  · apply newEvents_of_trace
    simp [addressPhase, cycleBytes]
  · rw [storesTo_append, storesTo_append, storesTo_poll, storesTo_dataStores _ _ _ _ (by decide)]
    simp [storesTo]
  · unfold bits; exact Nat.mod_lt _ (by decide)
  · unfold bits; exact Nat.mod_lt _ (by decide)

/-- Witness of C1 on the concrete bus, address 0x12345678 and two bytes. -/
theorem address_phase_five_cycles_witness :
    ReadyAt demoBus 2 ∧ 2 < 3 ∧
    ((∃ out1 s1 rest,
        nand_read busDevice 3 0x12345678 2 (fun _ => 0) demoBus = some (out1, s1) ∧
        newEvents demoBus s1 =
          [Event.store8 0x77B18000 (bits (pattern 0x12345678) 0 8),
           Event.store8 0x77B18000 (bits (pattern 0x12345678) 8 5),
           Event.store8 0x77B18000 (bits (pattern 0x12345678) 13 8),
           Event.store8 0x77B18000 (bits (pattern 0x12345678) 21 8),
           Event.store8 0x77B18000 (bits (pattern 0x12345678) 29 3)] ++ rest ∧
        storesTo 0x77B18000 rest = []) ∧
      (∃ s2 rest,
        nand_write busDevice 3 0x12345678 2 (fun _ => 0xAB) demoBus = some s2 ∧
        newEvents demoBus s2 =
          [Event.store8 0x77A00400 (bits (pattern 0x12345678) 0 8),
           Event.store8 0x77A00400 (bits (pattern 0x12345678) 8 5),
           Event.store8 0x77A00400 (bits (pattern 0x12345678) 13 8),
           Event.store8 0x77A00400 (bits (pattern 0x12345678) 21 8),
           Event.store8 0x77A00400 (bits (pattern 0x12345678) 29 3)] ++ rest ∧
        storesTo 0x77A00400 rest = []) ∧
      bits (pattern 0x12345678) 8 5 < 32 ∧ bits (pattern 0x12345678) 29 3 < 8) :=
  ⟨by unfold ReadyAt; decide, by decide,
    address_phase_five_cycles demoBus 2 3 0x12345678 2 (fun _ => 0xAB) (fun _ => 0)
      (by unfold ReadyAt; decide) (by decide)⟩

/-- C2: for every address `A` in `[0, 2^32)` (passed as the `int` with that
bit pattern), the five bytes that `nand_read` stores to 0x77B18000 and the
five bytes that `nand_write` stores to 0x77A00400 are the cycle bytes of `A`
and decode, as `b0 + b1*2^8 + b2*2^13 + b3*2^21 + b4*2^29`, to `A`; two
addresses in that range that give the same five bytes are equal. -/
theorem address_cycles_roundtrip (A : Nat) (hA : A < 2 ^ 32) (s : Bus) (k fuel : Nat)
    (addr len : Int) (buf out : Int → Nat) (hp : pattern addr = A)
    (h : ReadyAt s k) (hf : k < fuel) :
    (∃ out1 s1 s2, nand_read busDevice fuel addr len out s = some (out1, s1) ∧
      nand_write busDevice fuel addr len buf s = some s2 ∧
      storesTo 0x77B18000 (newEvents s s1) = cycleBytes A ∧
      storesTo 0x77A00400 (newEvents s s2) = cycleBytes A) ∧
    decodeCycles (cycleBytes A) = A ∧
    ∀ B, B < 2 ^ 32 → cycleBytes B = cycleBytes A → B = A := by
  refine ⟨⟨_, _, _, nand_read_run s k fuel addr len out h hf,
    nand_write_run s k fuel addr len buf h hf, ?_, ?_⟩, decode_cycleBytes A hA, ?_⟩
  · rw [newEvents_of_trace s _ (addressPhase 0x77B18000 (pattern addr) ++ pollEvents s k
        ++ loadEvents s len.toNat) (by simp)]
    rw [storesTo_append, storesTo_append, storesTo_poll, storesTo_load, storesTo_addressPhase, hp]
    simp
  · rw [newEvents_of_trace s _ (addressPhase 0x77A00400 (pattern addr)
        ++ dataStores buf 0 (len - 1).toNat
        ++ [Event.store8 0x77388000 (buf (max 0 (len - 1)))] ++ pollEvents s k) (by simp)]
    rw [storesTo_append, storesTo_append, storesTo_append, storesTo_poll,
      storesTo_dataStores _ _ _ _ (by decide), storesTo_addressPhase, hp]
    simp [storesTo]
  · intro B hB hBA
    rw [← decode_cycleBytes A hA, ← decode_cycleBytes B hB, hBA]

/-- Witness of C2 at the address 0xDEADBEEF, passed as the negative `int`
with that bit pattern. -/
theorem address_cycles_roundtrip_witness :
    0xDEADBEEF < 2 ^ 32 ∧ pattern (0xDEADBEEF - 2 ^ 32) = 0xDEADBEEF ∧ ReadyAt demoBus 2 ∧ 2 < 3 ∧
    ((∃ out1 s1 s2,
        nand_read busDevice 3 (0xDEADBEEF - 2 ^ 32) 1 (fun _ => 0) demoBus = some (out1, s1) ∧
        nand_write busDevice 3 (0xDEADBEEF - 2 ^ 32) 1 (fun _ => 0xAB) demoBus = some s2 ∧
        storesTo 0x77B18000 (newEvents demoBus s1) = cycleBytes 0xDEADBEEF ∧
        storesTo 0x77A00400 (newEvents demoBus s2) = cycleBytes 0xDEADBEEF) ∧
      decodeCycles (cycleBytes 0xDEADBEEF) = 0xDEADBEEF ∧
      ∀ B, B < 2 ^ 32 → cycleBytes B = cycleBytes 0xDEADBEEF → B = 0xDEADBEEF) :=
  ⟨by decide, by decide, by unfold ReadyAt; decide, by decide,
    address_cycles_roundtrip 0xDEADBEEF (by decide) demoBus 2 3 (0xDEADBEEF - 2 ^ 32) 1
      (fun _ => 0xAB) (fun _ => 0) (by decide) (by unfold ReadyAt; decide) (by decide)⟩

/-- C3, counterexample: the addresses 0 and 0x2000 lie in the same 2048-page
block (both have `A >> 24 = 0`), but `nand_erase` stores the bytes 0, 0, 0
to 0x77768300 for the first and 1, 0, 0 for the second. -/
theorem erase_same_block_counterexample :
    pattern 0 >>> 24 = pattern 0x2000 >>> 24 ∧
    ∃ r r1, nand_erase busDevice 3 0 demoBus = some r ∧
      nand_erase busDevice 3 0x2000 demoBus = some r1 ∧
      storesTo 0x77768300 (newEvents demoBus r.2) = [0, 0, 0] ∧
      storesTo 0x77768300 (newEvents demoBus r1.2) = [1, 0, 0] ∧
      storesTo 0x77768300 (newEvents demoBus r.2) ≠ storesTo 0x77768300 (newEvents demoBus r1.2) := by
  have hr : ReadyAt demoBus 2 := by unfold ReadyAt; decide
  have e0 := nand_erase_run demoBus 2 3 0 hr (by decide)
  have e1 := nand_erase_run demoBus 2 3 0x2000 hr (by decide)
  have n0 : storesTo 0x77768300 (newEvents demoBus
      { demoBus with polls := demoBus.polls + (2 + 1), loads := demoBus.loads + 1,
                     trace := demoBus.trace ++ erasePhase (pattern 0) ++ pollEvents demoBus 2
            ++ [Event.store8 0x77000380 0, Event.load8 0x77280000 (demoBus.data demoBus.loads)] })
      = [0, 0, 0] := by decide
  have n1 : storesTo 0x77768300 (newEvents demoBus
      { demoBus with polls := demoBus.polls + (2 + 1), loads := demoBus.loads + 1,
                     trace := demoBus.trace ++ erasePhase (pattern 0x2000) ++ pollEvents demoBus 2
            ++ [Event.store8 0x77000380 0, Event.load8 0x77280000 (demoBus.data demoBus.loads)] })
      = [1, 0, 0] := by decide
  refine ⟨by decide, _, _, e0, e1, n0, n1, ?_⟩
  rw [n0, n1]
  decide

/-- C3, as amended: two addresses whose bit patterns agree on bits 13 and up
make `nand_erase` store the same three bytes, `bits[20:13]`, `bits[28:21]`,
`bits[31:29]`, to the erase location 0x77768300. -/
theorem erase_cycles_ignore_column (s : Bus) (k fuel : Nat) (addr addr1 : Int)
    (hpage : pattern addr >>> 13 = pattern addr1 >>> 13) (h : ReadyAt s k) (hf : k < fuel) :
    ∃ r r1, nand_erase busDevice fuel addr s = some r ∧
      nand_erase busDevice fuel addr1 s = some r1 ∧
      storesTo 0x77768300 (newEvents s r.2) =
        [bits (pattern addr) 13 8, bits (pattern addr) 21 8, bits (pattern addr) 29 3] ∧
      storesTo 0x77768300 (newEvents s r1.2) = storesTo 0x77768300 (newEvents s r.2) := by
  have key : ∀ a : Int, storesTo 0x77768300 (newEvents s
      { s with polls := s.polls + (k + 1), loads := s.loads + 1,
               trace := s.trace ++ erasePhase (pattern a) ++ pollEvents s k
            ++ [Event.store8 0x77000380 0, Event.load8 0x77280000 (s.data s.loads)] })
      = [bits (pattern a) 13 8, bits (pattern a) 21 8, bits (pattern a) 29 3] := by
    intro a
    rw [newEvents_of_trace s _ (erasePhase (pattern a) ++ pollEvents s k
        ++ [Event.store8 0x77000380 0, Event.load8 0x77280000 (s.data s.loads)]) (by simp)]
    rw [storesTo_append, storesTo_append, storesTo_poll]
    simp [storesTo, erasePhase]
  refine ⟨_, _, nand_erase_run s k fuel addr h hf, nand_erase_run s k fuel addr1 h hf,
    key addr, ?_⟩
  rw [key addr, key addr1]
  have hd : pattern addr / 8192 = pattern addr1 / 8192 := by
    simpa [Nat.shiftRight_eq_div_pow] using hpage
  simp only [bits]
  norm_num
  refine ⟨?_, ?_, ?_⟩ <;> omega

/-- Witness of amended C3: 0x2000 and 0x3FFF differ only in the column bits. -/
theorem erase_cycles_ignore_column_witness :
    pattern 0x2000 >>> 13 = pattern 0x3FFF >>> 13 ∧ ReadyAt demoBus 2 ∧ 2 < 3 ∧
    ∃ r r1, nand_erase busDevice 3 0x2000 demoBus = some r ∧
      nand_erase busDevice 3 0x3FFF demoBus = some r1 ∧
      storesTo 0x77768300 (newEvents demoBus r.2) =
        [bits (pattern 0x2000) 13 8, bits (pattern 0x2000) 21 8, bits (pattern 0x2000) 29 3] ∧
      storesTo 0x77768300 (newEvents demoBus r1.2) = storesTo 0x77768300 (newEvents demoBus r.2) :=
  ⟨by decide, by unfold ReadyAt; decide, by decide,
    erase_cycles_ignore_column demoBus 2 3 0x2000 0x3FFF (by decide)
      (by unfold ReadyAt; decide) (by decide)⟩

/-- C4: for every address, every length `n ≥ 1` and every buffer, a run of
`nand_write` on the recording bus performs, after the five address cycles,
the stores of `buf[0], ..., buf[n-2]` in order to the data-write location
0x77288000, then the single store of `buf[n-1]` to the confirm location
0x77388000, and only then the polls of the ready flag; for `n = 1` nothing is
stored to 0x77288000 and the one byte goes to 0x77388000. -/
theorem write_data_then_confirm (s : Bus) (k fuel : Nat) (addr : Int) (n : Nat)
    (buf : Int → Nat) (hn : 1 ≤ n) (h : ReadyAt s k) (hf : k < fuel) :
    ∃ s1, nand_write busDevice fuel addr n buf s = some s1 ∧
      newEvents s s1 =
        addressPhase 0x77A00400 (pattern addr)
          ++ (List.range (n - 1)).map (fun (i : Nat) => Event.store8 0x77288000 (buf i))
          ++ [Event.store8 0x77388000 (buf ((n : Int) - 1))]
          ++ pollEvents s k ∧
      storesTo 0x77288000 (newEvents s s1) = (List.range (n - 1)).map (fun (i : Nat) => buf i) ∧
      storesTo 0x77388000 (newEvents s s1) = [buf ((n : Int) - 1)] ∧
      (n = 1 → storesTo 0x77288000 (newEvents s s1) = [] ∧
        storesTo 0x77388000 (newEvents s s1) = [buf 0]) := by
  have hmax : max 0 ((n : Int) - 1) = (n : Int) - 1 := by omega
  have hcnt : ((n : Int) - 1).toNat = n - 1 := by omega
  have hds : dataStores buf 0 (n - 1)
      = (List.range (n - 1)).map (fun (i : Nat) => Event.store8 0x77288000 (buf i)) := by
    simp [dataStores]
  have hev : newEvents s
      { s with polls := s.polls + (k + 1),
               trace := s.trace ++ addressPhase 0x77A00400 (pattern addr)
                 ++ dataStores buf 0 ((n : Int) - 1).toNat
                 ++ [Event.store8 0x77388000 (buf (max 0 ((n : Int) - 1)))]
                 ++ pollEvents s k }
      = addressPhase 0x77A00400 (pattern addr)
          ++ (List.range (n - 1)).map (fun (i : Nat) => Event.store8 0x77288000 (buf i))
          ++ [Event.store8 0x77388000 (buf ((n : Int) - 1))]
          ++ pollEvents s k := by
    apply newEvents_of_trace
    simp [hmax, hcnt, hds]
  have hdata : storesTo 0x77288000 ((List.range (n - 1)).map
      (fun (i : Nat) => Event.store8 0x77288000 (buf i)))
      = (List.range (n - 1)).map (fun (i : Nat) => buf i) := by
    induction List.range (n - 1) with
    | nil => rfl
    | cons j js ih => simp [storesTo, ih]
  have hconf : storesTo 0x77388000 ((List.range (n - 1)).map
      (fun (i : Nat) => Event.store8 0x77288000 (buf i))) = [] := by
    induction List.range (n - 1) with
    | nil => rfl
    | cons j js ih => simp [storesTo, ih]
  have h1 : storesTo 0x77288000 (addressPhase 0x77A00400 (pattern addr)
          ++ (List.range (n - 1)).map (fun (i : Nat) => Event.store8 0x77288000 (buf i))
          ++ [Event.store8 0x77388000 (buf ((n : Int) - 1))]
          ++ pollEvents s k) = (List.range (n - 1)).map (fun (i : Nat) => buf i) := by
    rw [storesTo_append, storesTo_append, storesTo_append, storesTo_poll, hdata]
    simp [storesTo, addressPhase, cycleBytes]
  have h2 : storesTo 0x77388000 (addressPhase 0x77A00400 (pattern addr)
          ++ (List.range (n - 1)).map (fun (i : Nat) => Event.store8 0x77288000 (buf i))
          ++ [Event.store8 0x77388000 (buf ((n : Int) - 1))]
          ++ pollEvents s k) = [buf ((n : Int) - 1)] := by
    rw [storesTo_append, storesTo_append, storesTo_append, storesTo_poll, hconf]
    simp [storesTo, addressPhase, cycleBytes]
  refine ⟨_, nand_write_run s k fuel addr n buf h hf, hev, ?_, ?_, ?_⟩
  · rw [hev, h1]
  · rw [hev, h2]
  · intro hn1
    subst hn1
    rw [hev, h1, h2]
    simp

/-- Witness of C4: `write(addr, 1, [0xAB])`. -/
theorem write_data_then_confirm_witness :
    1 ≤ 1 ∧ ReadyAt demoBus 2 ∧ 2 < 3 ∧
    ∃ s1, nand_write busDevice 3 0x12345678 (1 : Nat) (fun _ => 0xAB) demoBus = some s1 ∧
      newEvents demoBus s1 =
        addressPhase 0x77A00400 (pattern 0x12345678)
          ++ (List.range (1 - 1)).map
              (fun (i : Nat) => Event.store8 0x77288000 ((fun _ => 0xAB : Int → Nat) i))
          ++ [Event.store8 0x77388000 ((fun _ => 0xAB : Int → Nat) (((1 : Nat) : Int) - 1))]
          ++ pollEvents demoBus 2 ∧
      storesTo 0x77288000 (newEvents demoBus s1) =
        (List.range (1 - 1)).map (fun (i : Nat) => (fun _ => 0xAB : Int → Nat) i) ∧
      storesTo 0x77388000 (newEvents demoBus s1) =
        [(fun _ => 0xAB : Int → Nat) (((1 : Nat) : Int) - 1)] ∧
      (1 = 1 → storesTo 0x77288000 (newEvents demoBus s1) = [] ∧
        storesTo 0x77388000 (newEvents demoBus s1) = [(fun _ => 0xAB : Int → Nat) 0]) :=
  ⟨by decide, by unfold ReadyAt; decide, by decide,
    write_data_then_confirm demoBus 2 3 0x12345678 1 (fun _ => 0xAB) (by decide)
      (by unfold ReadyAt; decide) (by decide)⟩

/-- C5: a run of `nand_get_param_page` on the recording bus performs exactly
one store to the command location 0x77200760, then the polls of the ready
flag, then exactly 768 loads of the data location 0x77280000; afterwards
`page[i]` is the `i`-th byte loaded for every `i < 768`, and two runs from the
same bus state with different initial buffers give the same accesses and the
same first 768 bytes. -/
theorem param_page_one_command_768_reads (s : Bus) (k fuel : Nat) (page page1 : Int → Nat)
    (h : ReadyAt s k) (hf : k < fuel) :
    ∃ p s1 p1 s2,
      nand_get_param_page busDevice fuel page s = some (p, s1) ∧
      nand_get_param_page busDevice fuel page1 s = some (p1, s2) ∧
      newEvents s s1 = [Event.store8 0x77200760 0] ++ pollEvents s k ++ loadEvents s 768 ∧
      (loadEvents s 768).length = 768 ∧
      (∀ i : Nat, i < 768 → p (i : Int) = s.data (s.loads + i)) ∧
      newEvents s s2 = newEvents s s1 ∧
      (∀ i : Nat, i < 768 → p1 (i : Int) = p (i : Int)) := by
  refine ⟨_, _, _, _, nand_get_param_page_run s k fuel page h hf,
    nand_get_param_page_run s k fuel page1 h hf, ?_, ?_, ?_, rfl, ?_⟩
  · apply newEvents_of_trace
    simp
  · simp [loadEvents]
  · intro i hi
    have h1 : (0 : Int) ≤ (i : Int) ∧ (i : Int) < 768 := by omega
    simp [h1]
  · intro i hi
    have h1 : (0 : Int) ≤ (i : Int) ∧ (i : Int) < 768 := by omega
    simp [h1]

/-- Witness of C5 with an all-zero and an all-0xFF initial buffer. -/
theorem param_page_one_command_768_reads_witness :
    ReadyAt demoBus 2 ∧ 2 < 3 ∧
    ∃ p s1 p1 s2,
      nand_get_param_page busDevice 3 (fun _ => 0) demoBus = some (p, s1) ∧
      nand_get_param_page busDevice 3 (fun _ => 0xFF) demoBus = some (p1, s2) ∧
      newEvents demoBus s1 =
        [Event.store8 0x77200760 0] ++ pollEvents demoBus 2 ++ loadEvents demoBus 768 ∧
      (loadEvents demoBus 768).length = 768 ∧
      (∀ i : Nat, i < 768 → p (i : Int) = demoBus.data (demoBus.loads + i)) ∧
      newEvents demoBus s2 = newEvents demoBus s1 ∧
      (∀ i : Nat, i < 768 → p1 (i : Int) = p (i : Int)) :=
  ⟨by unfold ReadyAt; decide, by decide,
    param_page_one_command_768_reads demoBus 2 3 (fun _ => 0) (fun _ => 0xFF)
      (by unfold ReadyAt; decide) (by decide)⟩

/-- C6: on the simulated chip, started idle with any memory contents and any
latency, for every address, every length `n ≥ 1` and every buffer,
`nand_write(addr, n, buf)` followed immediately by `nand_read(addr, n, out)`
returns (given fuel above the latency) and leaves `out[i] = buf[i]` for all
`0 ≤ i < n`. -/
theorem write_then_read_roundtrip (c : Chip) (fuel : Nat) (addr : Int) (n : Nat)
    (buf out : Int → Nat) (hm : c.mode = ChipMode.idle) (hn : 1 ≤ n)
    (hf : c.latency < fuel) :
    ∃ c1 out1 c2,
      nand_write chipDevice fuel addr n buf c = some c1 ∧
      nand_read chipDevice fuel addr n out c1 = some (out1, c2) ∧
      ∀ i : Int, 0 ≤ i → i < n → out1 i = buf i := by
  refine ⟨_, _, _, chip_nand_write_run c fuel addr n buf hm (by omega) hf,
    chip_nand_read_run _ fuel addr n out rfl hf, ?_⟩
  intro i h0 h1
  have h2 : i.toNat < n := by omega
  have h3 : ((i.toNat : Nat) : Int) = i := by omega
  simp [h0, h1, h2, h3]

/-- Witness of C6: four bytes at address 0x12345678 on the concrete chip. -/
theorem write_then_read_roundtrip_witness :
    demoChip.mode = ChipMode.idle ∧ 1 ≤ 4 ∧ demoChip.latency < 4 ∧
    ∃ c1 out1 c2,
      nand_write chipDevice 4 0x12345678 (4 : Nat) (fun i => (i % 256).toNat) demoChip = some c1 ∧
      nand_read chipDevice 4 0x12345678 (4 : Nat) (fun _ => 0) c1 = some (out1, c2) ∧
      ∀ i : Int, 0 ≤ i → i < (4 : Nat) → out1 i = (fun i => (i % 256).toNat : Int → Nat) i :=
  ⟨rfl, by decide, by decide,
    write_then_read_roundtrip demoChip 4 0x12345678 4 (fun i => (i % 256).toNat) (fun _ => 0)
      rfl (by decide) (by decide)⟩

/-- C7: if the first status value with bit 0x80 set is the one returned by
the `k`-th poll (counting from 0), the busy-wait loop returns for every fuel
above `k`, having performed exactly the `k + 1` polls up to that one, and it
has not returned after `k` or fewer polls; the same holds for the loop as it
runs inside `nand_init`, `nand_get_param_page`, `nand_erase`, `nand_read` and
`nand_write`. Only bit 0x80 of the status values enters the hypothesis. -/
theorem busy_wait_exits_at_first_ready (s : Bus) (k : Nat) (addr len : Int)
    (buf out page : Int → Nat) (h : ReadyAt s k) :
    (∀ fuel, k < fuel →
      ∃ s1, busy_wait busDevice fuel s = some s1 ∧
        s1.polls = s.polls + (k + 1) ∧
        newEvents s s1 = pollEvents s k ∧
        (pollEvents s k).length = k + 1) ∧
    (∀ fuel, fuel ≤ k → busy_wait busDevice fuel s = none) ∧
    (∀ fuel, k < fuel →
      (∃ s1, nand_init busDevice fuel s = some s1 ∧ s1.polls = s.polls + (k + 1)) ∧
      (∃ p s1, nand_get_param_page busDevice fuel page s = some (p, s1) ∧
        s1.polls = s.polls + (k + 1)) ∧
      (∃ r, nand_erase busDevice fuel addr s = some r ∧ r.2.polls = s.polls + (k + 1)) ∧
      (∃ o s1, nand_read busDevice fuel addr len out s = some (o, s1) ∧
        s1.polls = s.polls + (k + 1)) ∧
      (∃ s1, nand_write busDevice fuel addr len buf s = some s1 ∧
        s1.polls = s.polls + (k + 1))) ∧
    (∀ fuel, fuel ≤ k →
      nand_init busDevice fuel s = none ∧
      nand_get_param_page busDevice fuel page s = none ∧
      nand_erase busDevice fuel addr s = none ∧
      nand_read busDevice fuel addr len out s = none ∧
      nand_write busDevice fuel addr len buf s = none) := by
  refine ⟨?_, fun fuel hf => busy_wait_short k s fuel h hf, ?_, ?_⟩
  · intro fuel hf
    refine ⟨_, busy_wait_run k s fuel h hf, rfl, ?_, ?_⟩
    · apply newEvents_of_trace
      rfl
    · simp [pollEvents]
  · intro fuel hf
    exact ⟨⟨_, nand_init_run s k fuel h hf, rfl⟩,
      ⟨_, _, nand_get_param_page_run s k fuel page h hf, rfl⟩,
      ⟨_, nand_erase_run s k fuel addr h hf, rfl⟩,
      ⟨_, _, nand_read_run s k fuel addr len out h hf, rfl⟩,
      ⟨_, nand_write_run s k fuel addr len buf h hf, rfl⟩⟩
  · intro fuel hf
    exact ⟨nand_init_short s k fuel h hf, nand_get_param_page_short s k fuel page h hf,
      nand_erase_short s k fuel addr h hf, nand_read_short s k fuel addr len out h hf,
      nand_write_short s k fuel addr len buf h hf⟩

/-- Witness of C7: the concrete bus is busy for two polls. -/
theorem busy_wait_exits_at_first_ready_witness :
    ReadyAt demoBus 2 ∧
    ((∀ fuel, 2 < fuel →
      ∃ s1, busy_wait busDevice fuel demoBus = some s1 ∧
        s1.polls = demoBus.polls + (2 + 1) ∧
        newEvents demoBus s1 = pollEvents demoBus 2 ∧
        (pollEvents demoBus 2).length = 2 + 1) ∧
    (∀ fuel, fuel ≤ 2 → busy_wait busDevice fuel demoBus = none) ∧
    (∀ fuel, 2 < fuel →
      (∃ s1, nand_init busDevice fuel demoBus = some s1 ∧ s1.polls = demoBus.polls + (2 + 1)) ∧
      (∃ p s1, nand_get_param_page busDevice fuel (fun _ => 0) demoBus = some (p, s1) ∧
        s1.polls = demoBus.polls + (2 + 1)) ∧
      (∃ r, nand_erase busDevice fuel 0x12345678 demoBus = some r ∧
        r.2.polls = demoBus.polls + (2 + 1)) ∧
      (∃ o s1, nand_read busDevice fuel 0x12345678 2 (fun _ => 0) demoBus = some (o, s1) ∧
        s1.polls = demoBus.polls + (2 + 1)) ∧
      (∃ s1, nand_write busDevice fuel 0x12345678 2 (fun _ => 0xAB) demoBus = some s1 ∧
        s1.polls = demoBus.polls + (2 + 1))) ∧
    (∀ fuel, fuel ≤ 2 →
      nand_init busDevice fuel demoBus = none ∧
      nand_get_param_page busDevice fuel (fun _ => 0) demoBus = none ∧
      nand_erase busDevice fuel 0x12345678 demoBus = none ∧
      nand_read busDevice fuel 0x12345678 2 (fun _ => 0) demoBus = none ∧
      nand_write busDevice fuel 0x12345678 2 (fun _ => 0xAB) demoBus = none)) :=
  ⟨by unfold ReadyAt; decide,
    busy_wait_exits_at_first_ready demoBus 2 0x12345678 2 (fun _ => 0xAB) (fun _ => 0)
      (fun _ => 0) (by unfold ReadyAt; decide)⟩

/-- C8: from every bus state (any register contents), a run of `nand_init`
returns with the configuration registers as `initRegs` gives them (the
clock-enable and pin registers ORed with their masks), `EXT_BUS_CONTROL` last
written with 0x04 and `NAND_CYCLES` equal
to 0x03C83588, and a second run of `nand_init` leaves every register of the
configuration as the first run left it. -/
theorem init_sets_mode_and_timing (s : Bus) (k fuel : Nat) (h : ReadyAt s k) (hf : k < fuel) :
    ∃ s1, nand_init busDevice fuel s = some s1 ∧
      s1.regs = initRegs s.regs ∧
      s1.regs Reg.EXT_BUS_CONTROL = 0x04 ∧
      s1.regs Reg.NAND_CYCLES = 0x03C83588 ∧
      ∀ k2 fuel2, ReadyAt s1 k2 → k2 < fuel2 →
        ∃ s2, nand_init busDevice fuel2 s1 = some s2 ∧ s2.regs = s1.regs := by
  refine ⟨_, nand_init_run s k fuel h hf, rfl, rfl, rfl, ?_⟩
  intro k2 fuel2 h2 hf2
  exact ⟨_, nand_init_run _ k2 fuel2 h2 hf2, initRegs_idem s.regs⟩

/-- Witness of C8 on the concrete bus. -/
theorem init_sets_mode_and_timing_witness :
    ReadyAt demoBus 2 ∧ 2 < 3 ∧
    ∃ s1, nand_init busDevice 3 demoBus = some s1 ∧
      s1.regs = initRegs demoBus.regs ∧
      s1.regs Reg.EXT_BUS_CONTROL = 0x04 ∧
      s1.regs Reg.NAND_CYCLES = 0x03C83588 ∧
      ∀ k2 fuel2, ReadyAt s1 k2 → k2 < fuel2 →
        ∃ s2, nand_init busDevice fuel2 s1 = some s2 ∧ s2.regs = s1.regs :=
  ⟨by unfold ReadyAt; decide, by decide,
    init_sets_mode_and_timing demoBus 2 3 (by unfold ReadyAt; decide) (by decide)⟩

/-- C9, counterexample: `nand_read` of one byte at address 0 on the concrete
bus performs five address cycles, three polls and then a load of the data
location, so a data transfer follows the polling. -/
theorem read_polls_before_data_counterexample :
    ∃ out1 s1, nand_read busDevice 3 0 1 (fun _ => 0) demoBus = some (out1, s1) ∧
      phasesOf demoBus s1 =
        [Phase.address, Phase.address, Phase.address, Phase.address, Phase.address,
         Phase.poll, Phase.poll, Phase.poll, Phase.data] ∧
      ¬ PhasesInOrder (phasesOf demoBus s1) := by
  have hr : ReadyAt demoBus 2 := by unfold ReadyAt; decide
  have hp : phasesOf demoBus
      { demoBus with polls := demoBus.polls + (2 + 1), loads := demoBus.loads + (1 : Int).toNat,
                     trace := demoBus.trace ++ addressPhase 0x77B18000 (pattern 0)
                       ++ pollEvents demoBus 2 ++ loadEvents demoBus (1 : Int).toNat }
      = [Phase.address, Phase.address, Phase.address, Phase.address, Phase.address,
         Phase.poll, Phase.poll, Phase.poll, Phase.data] := by decide
  refine ⟨_, _, nand_read_run demoBus 2 3 0 1 (fun _ => 0) hr (by decide), hp, ?_⟩
  rw [hp]
  unfold PhasesInOrder
  decide

/-- C9, as amended: on the recording bus, the accesses of `nand_init` are
configuration, one command, then the polls; those of `nand_write` are five
address cycles, the data transfers, then the polls; both are in phase order
with the polling last. `nand_get_param_page` issues one command, polls, and
only then performs its 768 data loads; `nand_read` performs five address
cycles, polls, and only then its data loads; `nand_erase` performs three
address cycles, polls, and then the command and the data load of
`nand_get_status`. `nand_get_status` alone is one command and one data load,
with no poll. -/
theorem operation_phase_sequences (s : Bus) (k fuel : Nat) (addr len : Int)
    (buf out page : Int → Nat) (h : ReadyAt s k) (hf : k < fuel) :
    (∃ s1, nand_init busDevice fuel s = some s1 ∧
      phasesOf s s1 = List.replicate 18 Phase.config ++ [Phase.command]
        ++ List.replicate (k + 1) Phase.poll ∧
      PhasesInOrder (phasesOf s s1)) ∧
    (∃ s1, nand_write busDevice fuel addr len buf s = some s1 ∧
      phasesOf s s1 = List.replicate 5 Phase.address
        ++ List.replicate ((len - 1).toNat + 1) Phase.data
        ++ List.replicate (k + 1) Phase.poll ∧
      PhasesInOrder (phasesOf s s1)) ∧
    (∃ p s1, nand_get_param_page busDevice fuel page s = some (p, s1) ∧
      phasesOf s s1 = [Phase.command] ++ List.replicate (k + 1) Phase.poll
        ++ List.replicate 768 Phase.data) ∧
    (∃ o s1, nand_read busDevice fuel addr len out s = some (o, s1) ∧
      phasesOf s s1 = List.replicate 5 Phase.address ++ List.replicate (k + 1) Phase.poll
        ++ List.replicate len.toNat Phase.data) ∧
    (∃ r, nand_erase busDevice fuel addr s = some r ∧
      phasesOf s r.2 = List.replicate 3 Phase.address ++ List.replicate (k + 1) Phase.poll
        ++ [Phase.command, Phase.data]) ∧
    phasesOf s (nand_get_status busDevice s).2 = [Phase.command, Phase.data] := by
  have ord : ∀ a b c d : Nat, PhasesInOrder (List.replicate a Phase.config
      ++ List.replicate b Phase.command ++ List.replicate c Phase.address
      ++ List.replicate d Phase.data ++ List.replicate (k + 1) Phase.poll) := by
    intro a b c d
    unfold PhasesInOrder
    simp only [List.pairwise_append, List.pairwise_replicate, List.mem_append,
      List.mem_replicate]
    simp [Phase.rank]
    refine ⟨⟨?_, ?_⟩, ?_⟩ <;> intro p <;> cases p <;> simp
  have hinit : phasesOf s
      { s with regs := initRegs s.regs, polls := s.polls + (k + 1),
               trace := s.trace ++ configEvents s.regs ++ [Event.store8 0x770007F8 0]
                 ++ pollEvents s k }
      = List.replicate 18 Phase.config ++ [Phase.command]
        ++ List.replicate (k + 1) Phase.poll := by
    rw [phasesOf_of_trace s _ (configEvents s.regs ++ [Event.store8 0x770007F8 0]
      ++ pollEvents s k) (by simp)]
    rw [List.map_append, List.map_append, phase_config, phase_poll]
    simp [phaseOf]
  have hwrite : phasesOf s
      { s with polls := s.polls + (k + 1),
               trace := s.trace ++ addressPhase 0x77A00400 (pattern addr)
                 ++ dataStores buf 0 (len - 1).toNat
                 ++ [Event.store8 0x77388000 (buf (max 0 (len - 1)))]
                 ++ pollEvents s k }
      = List.replicate 5 Phase.address ++ List.replicate ((len - 1).toNat + 1) Phase.data
        ++ List.replicate (k + 1) Phase.poll := by
    rw [phasesOf_of_trace s _ (addressPhase 0x77A00400 (pattern addr)
      ++ dataStores buf 0 (len - 1).toNat
      ++ [Event.store8 0x77388000 (buf (max 0 (len - 1)))] ++ pollEvents s k) (by simp)]
    have e1 : (addressPhase 0x77A00400 (pattern addr)).map phaseOf
        = List.replicate 5 Phase.address := by
      simp [phaseOf, addressPhase, cycleBytes, List.replicate]
    have e2 : [Event.store8 0x77388000 (buf (max 0 (len - 1)))].map phaseOf = [Phase.data] := by
      simp [phaseOf]
    rw [List.map_append, List.map_append, List.map_append, phase_poll, phase_dataStores, e1, e2,
      List.replicate_succ' (len - 1).toNat, List.append_assoc (List.replicate 5 Phase.address)]
  refine ⟨⟨_, nand_init_run s k fuel h hf, hinit, ?_⟩,
    ⟨_, nand_write_run s k fuel addr len buf h hf, hwrite, ?_⟩,
    ⟨_, _, nand_get_param_page_run s k fuel page h hf, ?_⟩,
    ⟨_, _, nand_read_run s k fuel addr len out h hf, ?_⟩,
    ⟨_, nand_erase_run s k fuel addr h hf, ?_⟩, ?_⟩
  · rw [hinit]
    simpa using ord 18 1 0 0
  · rw [hwrite]
    simpa using ord 0 0 5 ((len - 1).toNat + 1)
  · rw [phasesOf_of_trace s _ ([Event.store8 0x77200760 0] ++ pollEvents s k
      ++ loadEvents s 768) (by simp)]
    have e1 : [Event.store8 0x77200760 0].map phaseOf = [Phase.command] := by
      simp [phaseOf]
    rw [List.map_append, List.map_append, phase_poll, phase_load, e1]
  · rw [phasesOf_of_trace s _ (addressPhase 0x77B18000 (pattern addr) ++ pollEvents s k
      ++ loadEvents s len.toNat) (by simp)]
    have e1 : (addressPhase 0x77B18000 (pattern addr)).map phaseOf
        = List.replicate 5 Phase.address := by
      simp [phaseOf, addressPhase, cycleBytes, List.replicate]
    rw [List.map_append, List.map_append, phase_poll, phase_load, e1]
  · rw [phasesOf_of_trace s _ (erasePhase (pattern addr) ++ pollEvents s k
      ++ [Event.store8 0x77000380 0, Event.load8 0x77280000 (s.data s.loads)]) (by simp)]
    rw [List.map_append, List.map_append, phase_poll]
    simp [phaseOf, erasePhase, List.replicate]
  · rw [nand_get_status_run]
    rw [phasesOf_of_trace s _ [Event.store8 0x77000380 0,
      Event.load8 0x77280000 (s.data s.loads)] rfl]
    simp [phaseOf]

/-- Witness of amended C9 on the concrete bus. -/
theorem operation_phase_sequences_witness :
    ReadyAt demoBus 2 ∧ 2 < 3 ∧
    ((∃ s1, nand_init busDevice 3 demoBus = some s1 ∧
      phasesOf demoBus s1 = List.replicate 18 Phase.config ++ [Phase.command]
        ++ List.replicate (2 + 1) Phase.poll ∧
      PhasesInOrder (phasesOf demoBus s1)) ∧
    (∃ s1, nand_write busDevice 3 0x12345678 2 (fun _ => 0xAB) demoBus = some s1 ∧
      phasesOf demoBus s1 = List.replicate 5 Phase.address
        ++ List.replicate (((2 : Int) - 1).toNat + 1) Phase.data
        ++ List.replicate (2 + 1) Phase.poll ∧
      PhasesInOrder (phasesOf demoBus s1)) ∧
    (∃ p s1, nand_get_param_page busDevice 3 (fun _ => 0) demoBus = some (p, s1) ∧
      phasesOf demoBus s1 = [Phase.command] ++ List.replicate (2 + 1) Phase.poll
        ++ List.replicate 768 Phase.data) ∧
    (∃ o s1, nand_read busDevice 3 0x12345678 2 (fun _ => 0) demoBus = some (o, s1) ∧
      phasesOf demoBus s1 = List.replicate 5 Phase.address ++ List.replicate (2 + 1) Phase.poll
        ++ List.replicate (2 : Int).toNat Phase.data) ∧
    (∃ r, nand_erase busDevice 3 0x12345678 demoBus = some r ∧
      phasesOf demoBus r.2 = List.replicate 3 Phase.address ++ List.replicate (2 + 1) Phase.poll
        ++ [Phase.command, Phase.data]) ∧
    phasesOf demoBus (nand_get_status busDevice demoBus).2 = [Phase.command, Phase.data]) :=
  ⟨by unfold ReadyAt; decide, by decide,
    operation_phase_sequences demoBus 2 3 0x12345678 2 (fun _ => 0xAB) (fun _ => 0) (fun _ => 0)
      (by unfold ReadyAt; decide) (by decide)⟩

/-- C10, counterexample: for `length = 0` the data loop of `nand_write` is
left with `i = 0`, not `length - 1 = -1`, and the byte stored to the confirm
location is `buf[0]` (0x55 here), not `buf[-1]` (0xAA here). -/
theorem write_zero_length_counterexample :
    (write_loop busDevice ((0 : Int) - 1) 0 (fun i => if i = -1 then 0xAA else 0x55) demoBus).1 = 0 ∧
    (0 : Int) ≠ 0 - 1 ∧
    ∃ s1, nand_write busDevice 3 0 0 (fun i => if i = -1 then 0xAA else 0x55) demoBus = some s1 ∧
      storesTo 0x77388000 (newEvents demoBus s1) = [0x55] := by
  have hr : ReadyAt demoBus 2 := by unfold ReadyAt; decide
  have hs : storesTo 0x77388000 (newEvents demoBus
      { demoBus with polls := demoBus.polls + (2 + 1),
                     trace := demoBus.trace ++ addressPhase 0x77A00400 (pattern 0)
                       ++ dataStores (fun i => if i = -1 then 0xAA else 0x55) 0 ((0 : Int) - 1).toNat
                       ++ [Event.store8 0x77388000
                            ((fun i => if i = -1 then 0xAA else 0x55 : Int → Nat)
                              (max 0 ((0 : Int) - 1)))]
                       ++ pollEvents demoBus 2 }) = [0x55] := by decide
  refine ⟨?_, by decide, _, nand_write_run demoBus 2 3 0 0 _ hr (by decide), hs⟩
  rw [write_loop_run 0 ((0 : Int) - 1) 0 _ demoBus (by decide)]
  decide

/-- C10, as amended: for every `int` length above `INT_MIN`, the data loop of
`nand_write` is left with `i = length - 1` when `length ≥ 1` and with `i = 0`
otherwise, and the byte stored to the confirm location is `buf[i]` for that
`i`; so for `length = 0` it is `buf[0]`. -/
theorem confirm_index_after_loop (s : Bus) (k fuel : Nat) (addr len : Int) (buf : Int → Nat)
    (hlo : -2 ^ 31 < len) (hhi : len < 2 ^ 31) (h : ReadyAt s k) (hf : k < fuel) :
    (∀ s0 : Bus, (write_loop busDevice (len - 1) 0 buf s0).1 = if 1 ≤ len then len - 1 else 0) ∧
    ∃ s1, nand_write busDevice fuel addr len buf s = some s1 ∧
      storesTo 0x77388000 (newEvents s s1) = [buf (if 1 ≤ len then len - 1 else 0)] ∧
      (len = 0 → storesTo 0x77388000 (newEvents s s1) = [buf 0]) := by
  have hmax : max 0 (len - 1) = if 1 ≤ len then len - 1 else 0 := by
    split <;> omega
  have hs : storesTo 0x77388000 (newEvents s
      { s with polls := s.polls + (k + 1),
               trace := s.trace ++ addressPhase 0x77A00400 (pattern addr)
                 ++ dataStores buf 0 (len - 1).toNat
                 ++ [Event.store8 0x77388000 (buf (max 0 (len - 1)))]
                 ++ pollEvents s k }) = [buf (max 0 (len - 1))] := by
    rw [newEvents_of_trace s _ (addressPhase 0x77A00400 (pattern addr)
        ++ dataStores buf 0 (len - 1).toNat
        ++ [Event.store8 0x77388000 (buf (max 0 (len - 1)))] ++ pollEvents s k) (by simp)]
    rw [storesTo_append, storesTo_append, storesTo_append, storesTo_poll,
      storesTo_dataStores _ _ _ _ (by decide)]
    simp [storesTo, addressPhase, cycleBytes]
  refine ⟨?_, _, nand_write_run s k fuel addr len buf h hf, ?_, ?_⟩
  · intro s0
    rw [write_loop_run (len - 1).toNat (len - 1) 0 buf s0 (by omega)]
    exact hmax
  · rw [hs, hmax]
  · intro h0
    rw [hs, hmax, h0]
    rfl

/-- Witness of amended C10 at `length = 0`. -/
theorem confirm_index_after_loop_witness :
    (-2 ^ 31 : Int) < 0 ∧ (0 : Int) < 2 ^ 31 ∧ ReadyAt demoBus 2 ∧ 2 < 3 ∧
    ((∀ s0 : Bus, (write_loop busDevice ((0 : Int) - 1) 0 (fun _ => 0xAB) s0).1
        = if 1 ≤ (0 : Int) then (0 : Int) - 1 else 0) ∧
    ∃ s1, nand_write busDevice 3 0x12345678 0 (fun _ => 0xAB) demoBus = some s1 ∧
      storesTo 0x77388000 (newEvents demoBus s1)
        = [(fun _ => 0xAB : Int → Nat) (if 1 ≤ (0 : Int) then (0 : Int) - 1 else 0)] ∧
      ((0 : Int) = 0 → storesTo 0x77388000 (newEvents demoBus s1)
        = [(fun _ => 0xAB : Int → Nat) 0])) :=
  ⟨by decide, by decide, by unfold ReadyAt; decide, by decide,
    confirm_index_after_loop demoBus 2 3 0x12345678 0 (fun _ => 0xAB) (by decide) (by decide)
      (by unfold ReadyAt; decide) (by decide)⟩

end Nand
